import Mathlib

/-!
Shallow embedding of `src/tracker.py` (IT Helpdesk Ticket Tracker, SQLite).

The SQLite `tickets` table is embedded as a list of rows together with the
AUTOINCREMENT sequence value (`nextId`).  Columns declared `NOT NULL` in the
schema (`created_at`, `updated_at`, `title`, `category`, `priority`, `status`)
are plain `String`s; the nullable columns (`assignee`, `notes`) are
`Option String`.  Timestamps are the second-precision strings produced by
`now()`; the wall clock is passed to each operation as an explicit parameter
`t` (both `now()` calls inside `create_ticket` happen in the same statement
and are modelled as the same instant).  Each Python operation that prints a
confirmation is embedded as a function returning the new store together with
the printed message.
-/

/-- One row of the `tickets` table (schema in `src/tracker.py`, `SCHEMA`). -/
structure Ticket where
  id : Nat
  created_at : String
  updated_at : String
  title : String
  category : String
  priority : String
  status : String
  assignee : Option String
  notes : Option String
deriving DecidableEq

/-- The persistent store: the physical row sequence (insertion order) and the
AUTOINCREMENT counter for the `id` primary key. -/
structure Store where
  rows : List Ticket
  nextId : Nat
deriving DecidableEq

/-- Well-formedness maintained by the schema: `id` is a primary key assigned
from a strictly increasing sequence, so ids are strictly increasing in
insertion order and below the next sequence value. -/
def Store.WF (s : Store) : Prop :=
  s.rows.Pairwise (fun a b => a.id < b.id) ∧ ∀ r ∈ s.rows, r.id < s.nextId

/-- Arguments of the `new` subcommand after parsing (defaults filled in). -/
structure NewArgs where
  title : String
  category : String
  priority : String
  assignee : String
  notes : Option String
deriving DecidableEq

/-- Arguments of the `status` subcommand after parsing. -/
structure StatusArgs where
  id : Nat
  status : String
deriving DecidableEq

/-- Arguments of the `note` subcommand after parsing. -/
structure NoteArgs where
  id : Nat
  note : String
deriving DecidableEq

/-- Arguments of the `assign` subcommand after parsing. -/
structure AssignArgs where
  id : Nat
  assignee : String
deriving DecidableEq

/-- Arguments of the `find` subcommand after parsing. -/
structure FindArgs where
  query : String
deriving DecidableEq

/-- Arguments of the `export` subcommand after parsing. -/
structure ExportArgs where
  path : String
deriving DecidableEq

/-- The `choices` list of `--category` in `build_parser`. -/
def categoryChoices : List String := ["Hardware", "Software", "Network", "Account", "Other"]

/-- The `choices` list of `--priority` in `build_parser`. -/
def priorityChoices : List String := ["Low", "Medium", "High", "Critical"]

/-- The `choices` list of `--status` in `build_parser`. -/
def statusChoices : List String := ["Open", "In-Progress", "Resolved", "Closed"]

/-- The raw command line of a `new` invocation: each flag either given with a
value or omitted. -/
structure NewOpts where
  title : Option String
  category : Option String
  priority : Option String
  assignee : Option String
  notes : Option String
deriving DecidableEq

/-- The argparse boundary of the `new` subcommand (`build_parser`):
`--title` and `--category` are `required=True` (the flag must be present;
argparse does not inspect the value of `--title`), `--category` and
`--priority` are validated against their `choices`, `--priority` defaults to
`"Medium"`, `--assignee` defaults to `"Unassigned"`, `--notes` defaults to
`None`.  Returns `none` when argparse would reject the command line. -/
def parseNew (o : NewOpts) : Option NewArgs :=
  match o.title, o.category with
  | some title, some cat =>
    if cat ∈ categoryChoices then
      match o.priority with
      | some pri =>
        if pri ∈ priorityChoices then
          some ⟨title, cat, pri, o.assignee.getD "Unassigned", o.notes⟩
        else none
      | none => some ⟨title, cat, "Medium", o.assignee.getD "Unassigned", o.notes⟩
    else none
  | _, _ => none

/-- `create_ticket`: INSERT of one row; `id` is assigned by AUTOINCREMENT,
`created_at` and `updated_at` are both `now()`, `status` is `"Open"`, and
`notes` is `a.notes or ""` (so the column is never NULL). -/
def create_ticket (a : NewArgs) (t : String) (s : Store) : Store × String :=
  ({ rows := s.rows ++
      [{ id := s.nextId, created_at := t, updated_at := t, title := a.title,
         category := a.category, priority := a.priority, status := "Open",
         assignee := some a.assignee, notes := some (a.notes.getD "") }],
     nextId := s.nextId + 1 },
   "[+] Ticket created successfully.")

/-- The comparison realising `ORDER BY id DESC`. -/
def idDescOrder (a b : Ticket) : Prop := b.id ≤ a.id

instance : DecidableRel idDescOrder := fun a b => Nat.decLe b.id a.id

instance : IsTotal Ticket idDescOrder := ⟨fun a b => Nat.le_total b.id a.id⟩

instance : IsTrans Ticket idDescOrder := ⟨fun _ _ _ h1 h2 => Nat.le_trans h2 h1⟩

/-- The comparison realising `ORDER BY id ASC`. -/
def idAscOrder (a b : Ticket) : Prop := a.id ≤ b.id

instance : DecidableRel idAscOrder := fun a b => Nat.decLe a.id b.id

instance : IsTotal Ticket idAscOrder := ⟨fun a b => Nat.le_total a.id b.id⟩

instance : IsTrans Ticket idAscOrder := ⟨fun _ _ _ h1 h2 => Nat.le_trans h1 h2⟩

/-- `list_tickets`: `SELECT ... FROM tickets ORDER BY id DESC`.  The Python
code projects seven columns for display; the embedding returns the rows
themselves in the selected order. -/
def list_tickets (s : Store) : List Ticket :=
  List.insertionSort idDescOrder s.rows

/-- Does `f` accept some suffix of the given string (the string itself
included)?  Used to give the `%` wildcard its meaning. -/
def anySuffix (f : List Char → Bool) : List Char → Bool
  | [] => f []
  | c :: cs => f (c :: cs) || anySuffix f cs

/-- SQLite `LIKE` on lists of characters: `%` matches any sequence, `_`
matches any single character, and ordinary characters compare
case-insensitively for the ASCII range (SQLite default, with no ESCAPE
clause).  `Char.toLower` lower-cases exactly the ASCII letters, matching
SQLite's default ASCII-only folding. -/
def likeMatch : List Char → List Char → Bool
  | [], s => s.isEmpty
  | q :: ps, s =>
    if q = '%' then anySuffix (likeMatch ps) s
    else
      match s with
      | [] => false
      | c :: cs => (if q = '_' then true else q.toLower == c.toLower) && likeMatch ps cs

/-- The wildcard-wrapped pattern `f"%{a.query}%"` built by `find_tickets`. -/
def likePattern (q : String) : List Char := '%' :: (q.data ++ ['%'])

/-- The `WHERE title LIKE ? OR notes LIKE ?` row predicate.  `title` is
`NOT NULL`; when `notes` is NULL, `notes LIKE ?` is NULL and the row is only
selected if the title matches (SQL three-valued OR). -/
def rowMatches (q : String) (r : Ticket) : Bool :=
  likeMatch (likePattern q) r.title.data ||
    (match r.notes with
     | some n => likeMatch (likePattern q) n.data
     | none => false)

/-- `find_tickets`: keyword search over `title` and `notes`, `ORDER BY id
DESC`. -/
def find_tickets (a : FindArgs) (s : Store) : List Ticket :=
  List.insertionSort idDescOrder (s.rows.filter (rowMatches a.query))

/-- `update_status`: `UPDATE tickets SET status=?, updated_at=? WHERE id=?`,
then an unconditional success message. -/
def update_status (a : StatusArgs) (t : String) (s : Store) : Store × String :=
  ({ s with rows := s.rows.map fun r =>
      if r.id = a.id then { r with status := a.status, updated_at := t } else r },
   "[+] Ticket #" ++ toString a.id ++ " status updated to: " ++ a.status)

/-- `add_note`: `UPDATE tickets SET notes=COALESCE(notes,'')||?, updated_at=?
WHERE id=?` with parameter `"\n" + a.note`, then an unconditional success
message. -/
def add_note (a : NoteArgs) (t : String) (s : Store) : Store × String :=
  ({ s with rows := s.rows.map fun r =>
      if r.id = a.id then
        { r with notes := some ((r.notes.getD "") ++ ("\n" ++ a.note)), updated_at := t }
      else r },
   "[+] Note added to Ticket #" ++ toString a.id)

/-- `assign`: `UPDATE tickets SET assignee=?, updated_at=? WHERE id=?`, then
an unconditional success message. -/
def assign (a : AssignArgs) (t : String) (s : Store) : Store × String :=
  ({ s with rows := s.rows.map fun r =>
      if r.id = a.id then { r with assignee := some a.assignee, updated_at := t } else r },
   "[+] Ticket #" ++ toString a.id ++ " assigned to " ++ a.assignee)

/-- Header row written by `export_csv`: `cur.description` lists the columns of
`SELECT * FROM tickets` in schema order. -/
def csvHeader : List String :=
  ["id", "created_at", "updated_at", "title", "category", "priority", "status",
   "assignee", "notes"]

/-- One CSV data row: the row's column values in schema order, with the
integer id rendered in decimal and NULL rendered as the empty field (as
Python's csv writer does). -/
def ticketToRow (r : Ticket) : List String :=
  [toString r.id, r.created_at, r.updated_at, r.title, r.category, r.priority,
   r.status, r.assignee.getD "", r.notes.getD ""]

/-- `export_csv`: `SELECT * FROM tickets ORDER BY id ASC`, then open `a.path`
in mode `"w"` (truncating any existing file) and write the header row followed
by one row per ticket.  The file system is modelled as a map from paths to CSV
contents; the write replaces whatever was at `a.path`. -/
def export_csv (a : ExportArgs) (s : Store)
    (fileSys : String → Option (List (List String))) :
    (String → Option (List (List String))) × String :=
  (fun p =>
    if p = a.path then
      some (csvHeader :: (List.insertionSort idAscOrder s.rows).map ticketToRow)
    else fileSys p,
   "[+] Exported all tickets to " ++ a.path)

/-- One `SELECT f, COUNT(*) FROM tickets GROUP BY f`: one pair per distinct
value of `f`, with the number of rows in its group. -/
def groupCounts (f : Ticket → String) (rows : List Ticket) : List (String × Nat) :=
  (rows.map f).dedup.map fun v => (v, (rows.map f).count v)

/-- `stats`: the two grouped counts, by `status` and by `priority`. -/
def stats (s : Store) : List (String × Nat) × List (String × Nat) :=
  (groupCounts (fun r => r.status) s.rows, groupCounts (fun r => r.priority) s.rows)

/-- A concrete row used by the closed witnesses below. -/
def sampleTicket : Ticket :=
  { id := 1,
    created_at := "2024-01-01 09:00:00",
    updated_at := "2024-01-01 09:00:00",
    title := "Printer down",
    category := "Hardware",
    priority := "Medium",
    status := "Open",
    assignee := some "Unassigned",
    notes := some "" }

/-- A concrete one-row store used by the closed witnesses below. -/
def sampleStore : Store := ⟨[sampleTicket], 2⟩

/-- A concrete two-row store (distinct ids) used by the closed witnesses. -/
def sampleStore2 : Store := ⟨[sampleTicket, { sampleTicket with id := 2 }], 3⟩

/-- Mapping a function that fixes every element of a list is the identity. -/
lemma mapIdOn {α : Type} (f : α → α) :
    ∀ l : List α, (∀ x ∈ l, f x = x) → l.map f = l
  | [], _ => rfl
  | x :: xs, h => by
    simp only [List.map_cons]
    rw [h x (by simp), mapIdOn f xs fun y hy => h y (by simp [hy])]

/-- Pointwise description of `l.map g` against `l`. -/
lemma forallTwoMapSelf {α : Type} {R : α → α → Prop} (g : α → α) :
    ∀ l : List α, (∀ x ∈ l, R x (g x)) → List.Forall₂ R l (l.map g)
  | [], _ => List.Forall₂.nil
  | x :: xs, h =>
    List.Forall₂.cons (h x (by simp))
      (forallTwoMapSelf g xs fun y hy => h y (by simp [hy]))

/-- C1: mutating a nonexistent id is a silent no-op that still reports
success: for an id absent from the table, `update_status`, `add_note` and
`assign` each leave the store unchanged and return their success message. -/
theorem missing_id_silent_noop (s : Store) (n : Nat) (t st note asg : String)
    (h : ∀ r ∈ s.rows, r.id ≠ n) :
    update_status ⟨n, st⟩ t s =
      (s, "[+] Ticket #" ++ toString n ++ " status updated to: " ++ st) ∧
    add_note ⟨n, note⟩ t s = (s, "[+] Note added to Ticket #" ++ toString n) ∧
    assign ⟨n, asg⟩ t s =
      (s, "[+] Ticket #" ++ toString n ++ " assigned to " ++ asg) := by
  refine ⟨?_, ?_, ?_⟩ <;>
    simp only [update_status, add_note, assign] <;>
    rw [mapIdOn _ s.rows fun r hr => if_neg (h r hr)]

theorem missing_id_silent_noop_witness :
    (∀ r ∈ sampleStore.rows, r.id ≠ 5) ∧
    (update_status ⟨5, "Resolved"⟩ "2024-01-02 09:00:00" sampleStore =
      (sampleStore, "[+] Ticket #" ++ toString 5 ++ " status updated to: " ++ "Resolved") ∧
    add_note ⟨5, "Checked cables"⟩ "2024-01-02 09:00:00" sampleStore =
      (sampleStore, "[+] Note added to Ticket #" ++ toString 5) ∧
    assign ⟨5, "Dana"⟩ "2024-01-02 09:00:00" sampleStore =
      (sampleStore, "[+] Ticket #" ++ toString 5 ++ " assigned to " ++ "Dana")) :=
  ⟨by decide,
   missing_id_silent_noop sampleStore 5 "2024-01-02 09:00:00" "Resolved"
     "Checked cables" "Dana" (by decide)⟩

/-- C2: creating a ticket with only a title and a category parses to the
defaults (priority `"Medium"`, assignee `"Unassigned"`, notes `None`) and
inserts exactly one new row, with status `"Open"`, priority `"Medium"`,
assignee `"Unassigned"`, empty notes, and `created_at` equal to
`updated_at`. -/
theorem create_with_defaults (title cat t : String) (s : Store)
    (h : cat ∈ categoryChoices) :
    parseNew ⟨some title, some cat, none, none, none⟩ =
      some ⟨title, cat, "Medium", "Unassigned", none⟩ ∧
    create_ticket ⟨title, cat, "Medium", "Unassigned", none⟩ t s =
      ({ rows := s.rows ++
          [{ id := s.nextId, created_at := t, updated_at := t, title := title,
             category := cat, priority := "Medium", status := "Open",
             assignee := some "Unassigned", notes := some "" }],
         nextId := s.nextId + 1 },
       "[+] Ticket created successfully.") :=
  ⟨by simp [parseNew, h], rfl⟩

theorem create_with_defaults_witness :
    ("Hardware" ∈ categoryChoices) ∧
    (parseNew ⟨some "Printer down", some "Hardware", none, none, none⟩ =
      some ⟨"Printer down", "Hardware", "Medium", "Unassigned", none⟩ ∧
    create_ticket ⟨"Printer down", "Hardware", "Medium", "Unassigned", none⟩
        "2024-01-01 09:00:00" ⟨[], 1⟩ =
      ({ rows := [sampleTicket], nextId := 2 },
       "[+] Ticket created successfully.")) :=
  ⟨by decide,
   create_with_defaults "Printer down" "Hardware" "2024-01-01 09:00:00"
     ⟨[], 1⟩ (by decide)⟩

/-- C8: the grouped counts of `stats` are consistent: the status-group counts
and the priority-group counts each sum to the number of rows in the table,
hence to each other. -/
theorem stats_counts_consistent (s : Store) :
    ((stats s).1.map Prod.snd).sum = s.rows.length ∧
    ((stats s).2.map Prod.snd).sum = s.rows.length ∧
    ((stats s).1.map Prod.snd).sum = ((stats s).2.map Prod.snd).sum := by
  have key : ∀ f : Ticket → String,
      ((groupCounts f s.rows).map Prod.snd).sum = s.rows.length := by
    intro f
    have e : (groupCounts f s.rows).map Prod.snd =
        (s.rows.map f).dedup.map fun v => (s.rows.map f).count v := by
      simp [groupCounts, List.map_map, Function.comp]
    rw [e, List.sum_map_count_dedup_eq_length, List.length_map]
  exact ⟨key _, key _, (key _).trans (key _).symm⟩

/-- C9: `list` returns exactly as many entries as there are rows (indeed a
permutation of the table), and, since `id` is a primary key (all ids
distinct), the returned ids are strictly decreasing. -/
theorem list_desc_strict (s : Store)
    (h : s.rows.Pairwise fun a b => a.id ≠ b.id) :
    (list_tickets s).length = s.rows.length ∧
    (list_tickets s).Perm s.rows ∧
    (list_tickets s).Pairwise fun a b => b.id < a.id := by
  have hperm := List.perm_insertionSort idDescOrder s.rows
  have hsorted := List.sorted_insertionSort idDescOrder s.rows
  have hne : (list_tickets s).Pairwise fun a b => a.id ≠ b.id :=
    h.perm hperm.symm fun hxy => hxy.symm
  refine ⟨hperm.length_eq, hperm, ?_⟩
  exact (hsorted.and hne).imp fun hab =>
    Nat.lt_of_le_of_ne hab.1 fun e => hab.2 e.symm

theorem list_desc_strict_witness :
    (sampleStore2.rows.Pairwise fun a b => a.id ≠ b.id) ∧
    ((list_tickets sampleStore2).length = sampleStore2.rows.length ∧
    (list_tickets sampleStore2).Perm sampleStore2.rows ∧
    (list_tickets sampleStore2).Pairwise fun a b => b.id < a.id) :=
  ⟨by decide, list_desc_strict sampleStore2 (by decide)⟩

/-- `anySuffix f` accepts any string as soon as `f` accepts the empty
string. -/
lemma anySuffix_of_nil {f : List Char → Bool} (hf : f [] = true) :
    ∀ cs : List Char, anySuffix f cs = true
  | [] => hf
  | _ :: cs => by simp [anySuffix, anySuffix_of_nil hf cs]

/-- The single-percent pattern matches every string. -/
lemma likeMatch_pct (cs : List Char) : likeMatch ['%'] cs = true := by
  have h1 : likeMatch ['%'] cs = anySuffix (likeMatch []) cs := by simp [likeMatch]
  rw [h1]
  exact anySuffix_of_nil rfl cs

/-- The `%%` pattern (empty query, wildcard-wrapped) matches every string. -/
lemma likeMatch_pct_pct (cs : List Char) : likeMatch ['%', '%'] cs = true := by
  have h1 : likeMatch ['%', '%'] cs = anySuffix (likeMatch ['%']) cs := by
    simp [likeMatch]
  rw [h1]
  exact anySuffix_of_nil (likeMatch_pct []) cs

/-- C10: `find` with the empty query returns the whole table in descending id
order, i.e. exactly the output of `list`: the pattern `%%` matches every
(non-NULL) title, and `title` is `NOT NULL`. -/
theorem find_empty_query_returns_all (s : Store) :
    find_tickets ⟨""⟩ s = list_tickets s ∧ (find_tickets ⟨""⟩ s).Perm s.rows := by
  have hrow : ∀ r : Ticket, rowMatches "" r = true := by
    intro r
    have hpat : likePattern "" = ['%', '%'] := rfl
    simp [rowMatches, hpat, likeMatch_pct_pct]
  have hfilter : s.rows.filter (rowMatches "") = s.rows :=
    List.filter_eq_self.mpr fun r _ => hrow r
  refine ⟨?_, ?_⟩
  · simp only [find_tickets, list_tickets, hfilter]
  · simp only [find_tickets, hfilter]
    exact List.perm_insertionSort idDescOrder s.rows

/-- C3: `add_note` on an existing id rewrites exactly the matching row: the
new notes are the old notes (NULL coalesced to the empty string) followed by
a newline followed by the note text, `updated_at` is refreshed to the current
timestamp, all other fields are untouched, and every row with a different id
is unchanged. -/
theorem add_note_appends (a : NoteArgs) (t : String) (s : Store)
    (hex : ∃ r ∈ s.rows, r.id = a.id) :
    (add_note a t s).1.nextId = s.nextId ∧
    List.Forall₂ (fun old new =>
        (old.id ≠ a.id → new = old) ∧
        (old.id = a.id →
          new = { old with
                  notes := some ((old.notes.getD "") ++ ("\n" ++ a.note)),
                  updated_at := t }))
      s.rows (add_note a t s).1.rows := by
  obtain ⟨r0, hr0, hr0id⟩ := hex
  refine ⟨rfl, forallTwoMapSelf _ s.rows fun r _ => ?_⟩
  by_cases hid : r.id = a.id
  · exact ⟨fun hne => absurd hid hne, fun _ => if_pos hid⟩
  · exact ⟨fun _ => if_neg hid, fun h => absurd h hid⟩

theorem add_note_appends_witness :
    (∃ r ∈ (Store.mk [{ sampleTicket with notes := some "A" }] 2).rows, r.id = 1) ∧
    ((add_note ⟨1, "Checked cables"⟩ "2024-01-02 09:00:00"
        ⟨[{ sampleTicket with notes := some "A" }], 2⟩).1.nextId =
      (Store.mk [{ sampleTicket with notes := some "A" }] 2).nextId ∧
    List.Forall₂ (fun old new =>
        (old.id ≠ 1 → new = old) ∧
        (old.id = 1 →
          new = { old with
                  notes := some ((old.notes.getD "") ++ ("\n" ++ "Checked cables")),
                  updated_at := "2024-01-02 09:00:00" }))
      (Store.mk [{ sampleTicket with notes := some "A" }] 2).rows
      (add_note ⟨1, "Checked cables"⟩ "2024-01-02 09:00:00"
        ⟨[{ sampleTicket with notes := some "A" }], 2⟩).1.rows) :=
  ⟨⟨{ sampleTicket with notes := some "A" }, by simp, by decide⟩,
   add_note_appends ⟨1, "Checked cables"⟩ "2024-01-02 09:00:00"
     ⟨[{ sampleTicket with notes := some "A" }], 2⟩
     ⟨{ sampleTicket with notes := some "A" }, by simp, by decide⟩⟩

/-- C6: `update_status` on an existing id rewrites exactly the matching row:
its `status` becomes the new status and its `updated_at` is refreshed to the
current timestamp (hence does not decrease, the clock being monotone), while
`id`, `created_at`, `title`, `category`, `priority`, `assignee` and `notes`
keep their values; every row with a different id is unchanged, and so is the
id sequence. -/
theorem update_status_frame (a : StatusArgs) (t : String) (s : Store)
    (_hex : ∃ r ∈ s.rows, r.id = a.id)
    (_hval : a.status ∈ statusChoices)
    (hmono : ∀ r ∈ s.rows, r.id = a.id → r.updated_at ≤ t) :
    (update_status a t s).1.nextId = s.nextId ∧
    List.Forall₂ (fun old new =>
        (old.id ≠ a.id → new = old) ∧
        (old.id = a.id →
          new.id = old.id ∧ new.created_at = old.created_at ∧
          new.title = old.title ∧ new.category = old.category ∧
          new.priority = old.priority ∧ new.assignee = old.assignee ∧
          new.notes = old.notes ∧ new.status = a.status ∧
          new.updated_at = t ∧ old.updated_at ≤ new.updated_at))
      s.rows (update_status a t s).1.rows := by
  refine ⟨rfl, forallTwoMapSelf _ s.rows fun r hr => ?_⟩
  by_cases hid : r.id = a.id
  · refine ⟨fun hne => absurd hid hne, fun _ => ?_⟩
    rw [if_pos hid]
    exact ⟨rfl, rfl, rfl, rfl, rfl, rfl, rfl, rfl, rfl, hmono r hr hid⟩
  · exact ⟨fun _ => if_neg hid, fun h => absurd h hid⟩

theorem update_status_frame_witness :
    (∃ r ∈ sampleStore.rows, r.id = 1) ∧
    ("Resolved" ∈ statusChoices) ∧
    (∀ r ∈ sampleStore.rows, r.id = 1 → r.updated_at ≤ "2024-01-01 09:00:00") ∧
    ((update_status ⟨1, "Resolved"⟩ "2024-01-01 09:00:00" sampleStore).1.nextId =
      sampleStore.nextId ∧
    List.Forall₂ (fun old new =>
        (old.id ≠ 1 → new = old) ∧
        (old.id = 1 →
          new.id = old.id ∧ new.created_at = old.created_at ∧
          new.title = old.title ∧ new.category = old.category ∧
          new.priority = old.priority ∧ new.assignee = old.assignee ∧
          new.notes = old.notes ∧ new.status = "Resolved" ∧
          new.updated_at = "2024-01-01 09:00:00" ∧
          old.updated_at ≤ new.updated_at))
      sampleStore.rows
      (update_status ⟨1, "Resolved"⟩ "2024-01-01 09:00:00" sampleStore).1.rows) :=
  ⟨⟨sampleTicket, by simp [sampleStore], by decide⟩, by decide,
   by
    intro r hr _
    have he : r = sampleTicket := by simpa [sampleStore] using hr
    rw [he]
    exact le_refl _,
   update_status_frame ⟨1, "Resolved"⟩ "2024-01-01 09:00:00" sampleStore
     ⟨sampleTicket, by simp [sampleStore], by decide⟩ (by decide)
     (by
       intro r hr _
       have he : r = sampleTicket := by simpa [sampleStore] using hr
       rw [he]
       exact le_refl _)⟩

/-- C5: `export` writes, at the given path, the 9-column header in schema
order followed by one data row per ticket, the rows being the full table
sorted in ascending id order (strictly ascending, ids being unique);
whatever file was previously at the path is overwritten, and other paths are
untouched. -/
theorem export_writes_table (a : ExportArgs) (s : Store)
    (fileSys : String → Option (List (List String)))
    (hdist : s.rows.Pairwise fun x y => x.id ≠ y.id) :
    (export_csv a s fileSys).1 a.path =
      some (csvHeader :: (List.insertionSort idAscOrder s.rows).map ticketToRow) ∧
    csvHeader = ["id", "created_at", "updated_at", "title", "category",
      "priority", "status", "assignee", "notes"] ∧
    csvHeader.length = 9 ∧
    (List.insertionSort idAscOrder s.rows).Perm s.rows ∧
    ((List.insertionSort idAscOrder s.rows).Pairwise fun x y => x.id < y.id) ∧
    (∀ p, p ≠ a.path → (export_csv a s fileSys).1 p = fileSys p) := by
  have hperm := List.perm_insertionSort idAscOrder s.rows
  have hsorted := List.sorted_insertionSort idAscOrder s.rows
  have hne : (List.insertionSort idAscOrder s.rows).Pairwise
      fun x y => x.id ≠ y.id := hdist.perm hperm.symm fun hxy => hxy.symm
  refine ⟨by simp [export_csv], rfl, rfl, hperm, ?_, ?_⟩
  · exact (hsorted.and hne).imp fun hab => Nat.lt_of_le_of_ne hab.1 hab.2
  · intro p hp
    simp [export_csv, hp]

theorem export_writes_table_witness :
    (sampleStore2.rows.Pairwise fun x y => x.id ≠ y.id) ∧
    ((export_csv ⟨"out.csv"⟩ sampleStore2 fun _ => none).1 "out.csv" =
      some (csvHeader ::
        (List.insertionSort idAscOrder sampleStore2.rows).map ticketToRow) ∧
    csvHeader = ["id", "created_at", "updated_at", "title", "category",
      "priority", "status", "assignee", "notes"] ∧
    csvHeader.length = 9 ∧
    (List.insertionSort idAscOrder sampleStore2.rows).Perm sampleStore2.rows ∧
    ((List.insertionSort idAscOrder sampleStore2.rows).Pairwise
      fun x y => x.id < y.id) ∧
    (∀ p, p ≠ "out.csv" →
      (export_csv ⟨"out.csv"⟩ sampleStore2 fun _ => none).1 p = none)) :=
  ⟨by decide,
   export_writes_table ⟨"out.csv"⟩ sampleStore2 (fun _ => none) (by decide)⟩

/-- C7 counterexample: the input boundary accepts an empty `--title` (argparse
`required=True` only demands that the flag be present), and the resulting
insert stores a row whose title is the empty string. -/
theorem empty_title_stored :
    parseNew ⟨some "", some "Hardware", none, none, none⟩ =
      some ⟨"", "Hardware", "Medium", "Unassigned", none⟩ ∧
    ((create_ticket ⟨"", "Hardware", "Medium", "Unassigned", none⟩
        "2024-01-01 09:00:00" ⟨[], 1⟩).1.rows.map fun r => r.title) = [""] :=
  ⟨by decide, by decide⟩

/-- C7 amended: the `--title` flag is required at the input boundary (a `new`
command line without it is rejected, and any accepted command line carries
the stored title verbatim), but its value is not checked, so it may be the
empty string. -/
theorem title_flag_required (o : NewOpts) :
    (o.title = none → parseNew o = none) ∧
    ∀ args, parseNew o = some args → o.title = some args.title := by
  obtain ⟨ot, oc, op, oa, onn⟩ := o
  constructor
  · intro h
    simp only at h
    subst h
    rfl
  · intro args h
    cases ot with
    | none => simp [parseNew] at h
    | some tt =>
      cases oc with
      | none => simp [parseNew] at h
      | some cc =>
        simp only [parseNew] at h
        by_cases hmem : cc ∈ categoryChoices
        · rw [if_pos hmem] at h
          cases op with
          | none =>
            dsimp only at h
            injection h with h2
            subst h2
            rfl
          | some pp =>
            dsimp only at h
            by_cases hp : pp ∈ priorityChoices
            · rw [if_pos hp] at h
              injection h with h2
              subst h2
              rfl
            · rw [if_neg hp] at h
              exact absurd h (by simp)
        · rw [if_neg hmem] at h
          exact absurd h (by simp)

theorem title_flag_required_witness :
    parseNew ⟨none, some "Hardware", none, none, none⟩ = none :=
  (title_flag_required ⟨none, some "Hardware", none, none, none⟩).1 rfl

/-- Characterisation of `anySuffix`: some split of the string has its suffix
accepted by `f`. -/
lemma anySuffix_iff (f : List Char → Bool) :
    ∀ s : List Char, anySuffix f s = true ↔ ∃ s1 s2, s = s1 ++ s2 ∧ f s2 = true := by
  intro s
  induction s with
  | nil =>
    constructor
    · intro h
      exact ⟨[], [], rfl, h⟩
    · rintro ⟨s1, s2, he, hf⟩
      obtain ⟨h1, h2⟩ := List.append_eq_nil.mp he.symm
      subst h1
      subst h2
      exact hf
  | cons c cs ih =>
    constructor
    · intro h
      cases (Bool.or_eq_true _ _).mp h with
      | inl h1 => exact ⟨[], c :: cs, rfl, h1⟩
      | inr h2 =>
        obtain ⟨s1, s2, he, hf⟩ := ih.mp h2
        exact ⟨c :: s1, s2, by rw [he, List.cons_append], hf⟩
    · rintro ⟨s1, s2, he, hf⟩
      cases s1 with
      | nil =>
        simp only [List.nil_append] at he
        subst he
        simp [anySuffix, hf]
      | cons d s1 =>
        rw [List.cons_append] at he
        injection he with he1 he2
        simp [anySuffix, ih.mpr ⟨s1, s2, he2, hf⟩]

/-- A wildcard-free pattern matches exactly the strings equal to it up to
ASCII case. -/
lemma likeMatch_plain (p : List Char) (hp : ∀ c ∈ p, c ≠ '%' ∧ c ≠ '_') :
    ∀ s : List Char, likeMatch p s = true ↔
      p.map Char.toLower = s.map Char.toLower := by
  induction p with
  | nil =>
    intro s
    cases s <;> simp [likeMatch]
  | cons q qs ih =>
    intro s
    have hq := hp q (List.mem_cons_self q qs)
    have ih' := ih fun x hx => hp x (List.mem_cons_of_mem q hx)
    cases s with
    | nil => simp [likeMatch, hq.1]
    | cons c cs => simp [likeMatch, hq.1, hq.2, ih' cs]

/-- A wildcard-free pattern followed by `%` matches exactly the strings with
a prefix equal to it up to ASCII case. -/
lemma likeMatch_append_pct (q : List Char) (hq : ∀ c ∈ q, c ≠ '%' ∧ c ≠ '_') :
    ∀ s : List Char, likeMatch (q ++ ['%']) s = true ↔
      ∃ s1 s2, s = s1 ++ s2 ∧ q.map Char.toLower = s1.map Char.toLower := by
  induction q with
  | nil =>
    intro s
    constructor
    · intro _
      exact ⟨[], s, rfl, rfl⟩
    · intro _
      show likeMatch ['%'] s = true
      rw [show likeMatch ['%'] s = anySuffix (likeMatch []) s by simp [likeMatch]]
      exact anySuffix_of_nil rfl s
  | cons a q' ih =>
    intro s
    have ha := hq a (List.mem_cons_self a q')
    have ih' := ih fun x hx => hq x (List.mem_cons_of_mem a hx)
    cases s with
    | nil =>
      rw [List.cons_append]
      constructor
      · intro h
        simp [likeMatch, ha.1] at h
      · rintro ⟨s1, s2, he, hm⟩
        obtain ⟨h1, _⟩ := List.append_eq_nil.mp he.symm
        subst h1
        simp at hm
    | cons c cs =>
      rw [List.cons_append]
      have hstep : likeMatch (a :: (q' ++ ['%'])) (c :: cs) =
          ((if a = '_' then true else a.toLower == c.toLower) &&
            likeMatch (q' ++ ['%']) cs) := by
        simp [likeMatch, ha.1]
      rw [hstep, if_neg ha.2]
      constructor
      · intro h
        obtain ⟨hac, hrest⟩ := (Bool.and_eq_true _ _).mp h
        obtain ⟨s1, s2, he, hm⟩ := (ih' cs).mp hrest
        refine ⟨c :: s1, s2, by rw [he, List.cons_append], ?_⟩
        simp only [List.map_cons, hm]
        rw [beq_iff_eq] at hac
        rw [hac]
      · rintro ⟨s1, s2, he, hm⟩
        cases s1 with
        | nil => simp at hm
        | cons b s1 =>
          rw [List.cons_append] at he
          injection he with he1 he2
          simp only [List.map_cons] at hm
          injection hm with hm1 hm2
          subst he1
          refine (Bool.and_eq_true _ _).mpr ⟨?_, (ih' cs).mpr ⟨s1, s2, he2, hm2⟩⟩
          rw [beq_iff_eq, hm1]

/-- The wildcard-wrapped pattern `%q%` built by `find_tickets` matches a
string exactly when `q` (lower-cased) is a contiguous substring of the string
(lower-cased), provided the query itself contains no `LIKE` wildcard. -/
lemma likePattern_iff_infix (q : String) (hq : ∀ c ∈ q.data, c ≠ '%' ∧ c ≠ '_')
    (cs : List Char) :
    likeMatch (likePattern q) cs = true ↔
      (q.data.map Char.toLower) <:+: (cs.map Char.toLower) := by
  rw [show likeMatch (likePattern q) cs =
      anySuffix (likeMatch (q.data ++ ['%'])) cs by simp [likeMatch, likePattern]]
  rw [anySuffix_iff]
  constructor
  · rintro ⟨s1, s2, he, hf⟩
    obtain ⟨m1, m2, hm, hql⟩ := (likeMatch_append_pct q.data hq s2).mp hf
    refine ⟨s1.map Char.toLower, m2.map Char.toLower, ?_⟩
    rw [he, hm]
    simp [List.map_append, hql, List.append_assoc]
  · rintro ⟨a, b, hab⟩
    have hmap : cs.map Char.toLower = (a ++ q.data.map Char.toLower) ++ b := by
      rw [← hab, List.append_assoc]
    obtain ⟨l1, l2, hcs, hm1, hm2⟩ := List.map_eq_append_iff.mp hmap
    obtain ⟨l11, l12, hl1, hm11, hm12⟩ := List.map_eq_append_iff.mp hm1
    refine ⟨l11, l12 ++ l2, by rw [hcs, hl1, List.append_assoc], ?_⟩
    exact (likeMatch_append_pct q.data hq _).mpr ⟨l12, l2, rfl, hm12.symm⟩

/-- A ticket whose title is lower-case `printer down`, for the C4
counterexample. -/
def lowerTicket : Ticket := { sampleTicket with title := "printer down" }

/-- C4 counterexample: `find` with query `Printer` returns the ticket titled
`printer down`, although neither its title nor its notes contains `Printer`
as a case-sensitive substring: the engine-default `LIKE` match is
case-insensitive for ASCII, so the claimed case-sensitive characterisation is
false on this store. -/
theorem find_is_not_case_sensitive :
    find_tickets ⟨"Printer"⟩ ⟨[lowerTicket], 2⟩ = [lowerTicket] ∧
    ¬ ("Printer".data <:+: lowerTicket.title.data) ∧
    ¬ ("Printer".data <:+: (lowerTicket.notes.getD "").data) :=
  ⟨by decide, by decide, by decide⟩

/-- C4 amended: for a query containing no `LIKE` wildcard (`%` or `_`), `find`
returns exactly those tickets whose title or (non-NULL) notes contains the
query as a case-insensitive (ASCII folding) substring, ordered by strictly
descending id. -/
theorem find_ci_substring_characterization (q : String) (s : Store)
    (hq : ∀ c ∈ q.data, c ≠ '%' ∧ c ≠ '_')
    (hdist : s.rows.Pairwise fun a b => a.id ≠ b.id) :
    (∀ r : Ticket, r ∈ find_tickets ⟨q⟩ s ↔
        r ∈ s.rows ∧
          ((q.data.map Char.toLower) <:+: (r.title.data.map Char.toLower) ∨
           ∃ n, r.notes = some n ∧
             (q.data.map Char.toLower) <:+: (n.data.map Char.toLower))) ∧
    (find_tickets ⟨q⟩ s).Pairwise fun a b => b.id < a.id := by
  have hperm := List.perm_insertionSort idDescOrder (s.rows.filter (rowMatches q))
  constructor
  · intro r
    have hrow : rowMatches q r = true ↔
        ((q.data.map Char.toLower) <:+: (r.title.data.map Char.toLower) ∨
         ∃ n, r.notes = some n ∧
           (q.data.map Char.toLower) <:+: (n.data.map Char.toLower)) := by
      cases hn : r.notes with
      | none => simp [rowMatches, hn, likePattern_iff_infix q hq]
      | some n => simp [rowMatches, hn, likePattern_iff_infix q hq]
    rw [show find_tickets ⟨q⟩ s =
        List.insertionSort idDescOrder (s.rows.filter (rowMatches q)) from rfl]
    rw [hperm.mem_iff, List.mem_filter, hrow]
  · have hsorted := List.sorted_insertionSort idDescOrder (s.rows.filter (rowMatches q))
    have hne : (find_tickets ⟨q⟩ s).Pairwise fun a b => a.id ≠ b.id :=
      (hdist.sublist (List.filter_sublist s.rows)).perm hperm.symm fun h => h.symm
    exact (hsorted.and hne).imp fun hab =>
      Nat.lt_of_le_of_ne hab.1 fun e => hab.2 e.symm

theorem find_ci_substring_characterization_witness :
    (∀ c ∈ "Printer".data, c ≠ '%' ∧ c ≠ '_') ∧
    (sampleStore2.rows.Pairwise fun a b => a.id ≠ b.id) ∧
    ((∀ r : Ticket, r ∈ find_tickets ⟨"Printer"⟩ sampleStore2 ↔
        r ∈ sampleStore2.rows ∧
          (("Printer".data.map Char.toLower) <:+: (r.title.data.map Char.toLower) ∨
           ∃ n, r.notes = some n ∧
             ("Printer".data.map Char.toLower) <:+: (n.data.map Char.toLower))) ∧
    (find_tickets ⟨"Printer"⟩ sampleStore2).Pairwise fun a b => b.id < a.id) :=
  ⟨by decide, by decide,
   find_ci_substring_characterization "Printer" sampleStore2 (by decide) (by decide)⟩
